import Mathlib

/-!
Verification of the path-following agent animation engine and the
floor-elevation clustering routine of the `glbmeet` repository.

The embedding below translates the relevant JavaScript source into Lean:

* `detectFloorLevels` (from `src/hooks/useModelLoader.js`) is modelled over `ℚ`
  with JavaScript's `Math.round` rendered as round-half-up (`round`), the
  `Set`-plus-`sort` pipeline as `dedup` followed by `insertionSort`, and the
  grouping loop as structural recursion.

* `WalkingObject` (the path animator, `src/utils/WalkingObject.js`) is modelled
  with real-number scalars.  JavaScript arithmetic on the segment-progress
  counter can produce the IEEE special values `Infinity` and `NaN` (the source
  divides by a segment length with no zero guard), so scalar values that flow
  through that computation are represented by `JSNum`, reals extended with
  `inf`, `ninf` and `nan`, with the IEEE propagation rules for exactly the
  operations the source performs.
-/

/-! ## FloorClusterer (`detectFloorLevels` in `useModelLoader.js`) -/

/-- JavaScript `Math.round(y * 10) / 10`: round to one decimal place.
`Math.round` rounds half-way cases toward `+∞`, which is Lean's `round`. -/
def roundTo1 (q : ℚ) : ℚ :=
  (round (q * 10) : ℤ) / 10

/-- Arithmetic mean, `currentGroup.reduce((a, b) => a + b) / currentGroup.length`. -/
def listMean (l : List ℚ) : ℚ :=
  l.sum / l.length

/-- The grouping loop of `detectFloorLevels`.  `cur` is the current group in
reverse order (its head is `currentGroup[currentGroup.length - 1]`); a new
sample joins the group while `next - last_in_group < 0.5`, otherwise the
group's mean is emitted and a fresh group is started.  The final group's mean
is always emitted (`currentGroup` is never empty). -/
def clusterLoop : List ℚ → List ℚ → List ℚ
  | cur, [] => [listMean cur.reverse]
  | cur, x :: xs =>
    if x - cur.headD 0 < 1 / 2 then
      clusterLoop (x :: cur) xs
    else
      listMean cur.reverse :: clusterLoop [x] xs

/-- `sortedHeights`: round every elevation sample to one decimal place,
deduplicate (the JavaScript `Set`), and sort ascending. -/
def sortedHeights (samples : List ℚ) : List ℚ :=
  List.insertionSort (· ≤ ·) (samples.map roundTo1).dedup

/-- `detectFloorLevels`: cluster the rounded, deduplicated, sorted elevation
samples into groups separated by gaps of at least `0.5` and return the
arithmetic mean of each group. -/
def detectFloorLevels (samples : List ℚ) : List ℚ :=
  match sortedHeights samples with
  | [] => []
  | h :: t => clusterLoop [h] t

/-- The elevation samples `[0.0, 0.05, 3.0, 3.02]` of the clustering scenario. -/
def demoElevations : List ℚ :=
  [0, 1/20, 3, 151/50]

/-! ## WalkingObject (`src/utils/WalkingObject.js`)

The agent state machine.  Scalars are exact reals; values flowing through the
unguarded division `moveDistance / segmentLength` in `update` are JavaScript
numbers that can become `Infinity` or `NaN`, represented by `JSNum`. -/

noncomputable section

open scoped Classical

/-- A JavaScript number as it flows through the progress computation of
`WalkingObject.update`: a finite real, `Infinity`, `-Infinity`, or `NaN`.
Finite values are exact reals (binary float rounding is not modelled). -/
inductive JSNum where
  | fin (v : ℝ)
  | inf
  | ninf
  | nan

/-- JavaScript `+` on `JSNum` (IEEE special-value propagation). -/
def JSNum.add : JSNum → JSNum → JSNum
  | .fin a, .fin b => .fin (a + b)
  | .fin _, .inf => .inf
  | .fin _, .ninf => .ninf
  | .inf, .fin _ => .inf
  | .inf, .inf => .inf
  | .inf, .ninf => .nan
  | .ninf, .fin _ => .ninf
  | .ninf, .inf => .nan
  | .ninf, .ninf => .ninf
  | .nan, _ => .nan
  | _, .nan => .nan

/-- JavaScript `*` on `JSNum` (IEEE special-value propagation; in particular
`0 * Infinity = NaN`). -/
def JSNum.mul : JSNum → JSNum → JSNum
  | .fin a, .fin b => .fin (a * b)
  | .fin a, .inf => if 0 < a then .inf else if a < 0 then .ninf else .nan
  | .fin a, .ninf => if 0 < a then .ninf else if a < 0 then .inf else .nan
  | .inf, .fin b => if 0 < b then .inf else if b < 0 then .ninf else .nan
  | .ninf, .fin b => if 0 < b then .ninf else if b < 0 then .inf else .nan
  | .inf, .inf => .inf
  | .inf, .ninf => .ninf
  | .ninf, .inf => .ninf
  | .ninf, .ninf => .inf
  | .nan, _ => .nan
  | _, .nan => .nan

/-- JavaScript division of two finite numbers: division by zero yields a
signed infinity, and `0 / 0` yields `NaN` (one unsigned zero; the source never
produces a negative zero denominator here, since the denominator is a
`distanceTo` result). -/
def jsdivFin (m l : ℝ) : JSNum :=
  if l = 0 then (if 0 < m then .inf else if m < 0 then .ninf else .nan)
  else .fin (m / l)

/-- JavaScript `>= 1` on a number: `NaN >= 1` is false. -/
def JSNum.geOne : JSNum → Prop
  | .fin v => 1 ≤ v
  | .inf => True
  | .ninf => False
  | .nan => False

/-- A 3D point/vector with finite coordinates (`THREE.Vector3` as supplied by
the routing collaborator). -/
structure Vec3 where
  x : ℝ
  y : ℝ
  z : ℝ

/-- A 3D vector whose coordinates may be IEEE special values (the agent's
position after a poisoned interpolation). -/
structure JVec3 where
  x : JSNum
  y : JSNum
  z : JSNum

/-- Embed a finite vector. -/
def finVec (v : Vec3) : JVec3 :=
  ⟨.fin v.x, .fin v.y, .fin v.z⟩

/-- The origin, also the `getD` fallback for out-of-range path reads. -/
def v0 : Vec3 :=
  ⟨0, 0, 0⟩

/-- `THREE.Vector3.distanceTo`. -/
def distanceTo (v w : Vec3) : ℝ :=
  Real.sqrt ((w.x - v.x) ^ 2 + (w.y - v.y) ^ 2 + (w.z - v.z) ^ 2)

/-- `THREE.Vector3.length`. -/
def length3 (v : Vec3) : ℝ :=
  Real.sqrt (v.x ^ 2 + v.y ^ 2 + v.z ^ 2)

/-- `THREE.Vector3.normalize`: `divideScalar(length() || 1)`, so the zero
vector is left unchanged. -/
def normalize3 (v : Vec3) : Vec3 :=
  let d := if length3 v = 0 then 1 else length3 v
  ⟨v.x / d, v.y / d, v.z / d⟩

/-- One component of `THREE.Vector3.lerpVectors`: `a + (b - a) * t`. -/
def lerpComp (a b : ℝ) (t : JSNum) : JSNum :=
  (JSNum.fin a).add ((JSNum.fin (b - a)).mul t)

/-- `THREE.Vector3.lerpVectors(v, w, t)`, componentwise. -/
def lerpVectors (v w : Vec3) (t : JSNum) : JVec3 :=
  ⟨lerpComp v.x w.x t, lerpComp v.y w.y t, lerpComp v.z w.z t⟩

/-- JavaScript `Math.atan2(y, x)` on exact reals.  Signed zero is not
modelled; `atan2(0, 0) = 0`, as for JavaScript's `+0`. -/
def jsAtan2 (y x : ℝ) : ℝ :=
  if 0 < x then Real.arctan (y / x)
  else if x < 0 then
    (if 0 ≤ y then Real.arctan (y / x) + Real.pi else Real.arctan (y / x) - Real.pi)
  else
    (if 0 < y then Real.pi / 2 else if y < 0 then -(Real.pi / 2) else 0)

/-- The mutable state of a `WalkingObject`: the stored path, segment index and
segment progress, the walking flag, the walk speed, and the scene object's
position, Y rotation and visibility.  The gait sub-poses of the body parts are
pure outputs (`GaitPose` below) and are not part of this state. -/
structure WOState where
  path : List Vec3
  currentPathIndex : ℕ
  progress : JSNum
  isWalking : Bool
  walkSpeed : ℝ
  position : JVec3
  rotationY : ℝ
  visible : Bool

/-- Observable outputs of one operation: the completion callback, the progress
callback `(currentIndex, path.length)`, and the `console.warn` invalid-path
diagnostic. -/
inductive WOEvent where
  | completed
  | progressEv (index total : ℕ)
  | warnInvalidPath

/-- The state established by the constructor: empty path, index and progress
zero, not walking, speed `2`, object at the origin, hidden. -/
def initialState : WOState :=
  { path := [], currentPathIndex := 0, progress := .fin 0, isWalking := false,
    walkSpeed := 2, position := finVec v0, rotationY := 0, visible := false }

namespace WOState

/-- `lookAtNextPoint`: normalize the full 3D direction to the next waypoint
(the source comment says "only in XZ plane", but no component is dropped) and,
if the *normalized* vector has positive length, set the Y rotation to
`atan2(direction.x, direction.z)`. -/
def lookAtNextPoint (s : WOState) : WOState :=
  if s.currentPathIndex + 1 < s.path.length then
    let currentPos := s.path.getD s.currentPathIndex v0
    let nextPos := s.path.getD (s.currentPathIndex + 1) v0
    let direction := normalize3
      ⟨nextPos.x - currentPos.x, nextPos.y - currentPos.y, nextPos.z - currentPos.z⟩
    if 0 < length3 direction then
      { s with rotationY := jsAtan2 direction.x direction.z }
    else s
  else s

/-- `setPath(worldPath)`: reject a missing or short path with a warning;
otherwise store the path, reset index/progress/walking, snap the object to the
first waypoint, reveal it, and face the first segment. -/
def setPath (s : WOState) (worldPath : Option (List Vec3)) : WOState × List WOEvent :=
  match worldPath with
  | none => (s, [.warnInvalidPath])
  | some p =>
    if p.length < 2 then (s, [.warnInvalidPath])
    else
      let s1 : WOState :=
        { s with path := p, currentPathIndex := 0, progress := .fin 0, isWalking := false,
                 position := finVec (p.getD 0 v0), visible := true }
      (if 1 < p.length then s1.lookAtNextPoint else s1, [])

/-- `startWalking()`: reject without a valid path; otherwise set the walking
flag, and only when still at the very beginning snap to the first waypoint,
recompute the yaw and fire the initial progress callback. -/
def startWalking (s : WOState) : WOState × List WOEvent :=
  if s.path.length < 2 then (s, [.warnInvalidPath])
  else
    let s1 : WOState := { s with isWalking := true }
    if s1.currentPathIndex = 0 ∧ s1.progress = JSNum.fin 0 then
      let s2 : WOState := { s1 with position := finVec (s1.path.getD 0 v0) }
      (s2.lookAtNextPoint, [.progressEv 0 s.path.length])
    else (s1, [])

/-- `resumeWalking()`: reject without a valid path; otherwise set the walking
flag, keeping index and progress. -/
def resumeWalking (s : WOState) : WOState × List WOEvent :=
  if s.path.length < 2 then (s, [.warnInvalidPath])
  else ({ s with isWalking := true }, [])

/-- `stopWalking()`. -/
def stopWalking (s : WOState) : WOState :=
  { s with isWalking := false }

/-- `resetPosition()`: when a path exists, reset index and progress, snap to
the first waypoint and recompute the yaw.  (`animateIdle` is also called; it
only moves gait body parts.)  The walking flag is not touched. -/
def resetPosition (s : WOState) : WOState :=
  if 0 < s.path.length then
    let s1 : WOState := { s with currentPathIndex := 0, progress := .fin 0,
                                 position := finVec (s.path.getD 0 v0) }
    s1.lookAtNextPoint
  else s

/-- `hide()`: hide the object and stop walking. -/
def hideObject (s : WOState) : WOState :=
  { s with visible := false, isWalking := false }

/-- `show()`. -/
def showObject (s : WOState) : WOState :=
  { s with visible := true }

/-- `setWalkSpeed(speed)`: clamped below at `0.1`. -/
def setWalkSpeed (s : WOState) (speed : ℝ) : WOState :=
  { s with walkSpeed := max 0.1 speed }

/-- `update(deltaTime)`: no-op unless walking with a valid path; at the last
waypoint stop walking and fire the completion callback; otherwise advance the
progress by `walkSpeed * deltaTime / segmentLength` (unguarded division) and
either cross into the next segment (progress reset to `0`, yaw recomputed if
another segment follows, progress callback fired, position untouched) or
re-interpolate the position along the current segment.  (`animateWalking` /
`animateIdle` are also called; they only move gait body parts.) -/
def update (s : WOState) (deltaTime : ℝ) : WOState × List WOEvent :=
  if ¬ s.isWalking ∨ s.path.length < 2 then (s, [])
  else if s.path.length - 1 ≤ s.currentPathIndex then
    ({ s with isWalking := false }, [.completed])
  else
    let currentPos := s.path.getD s.currentPathIndex v0
    let nextPos := s.path.getD (s.currentPathIndex + 1) v0
    let segmentLength := distanceTo currentPos nextPos
    let moveDistance := s.walkSpeed * deltaTime
    let progress1 := s.progress.add (jsdivFin moveDistance segmentLength)
    if progress1.geOne then
      let s1 : WOState := { s with currentPathIndex := s.currentPathIndex + 1,
                                   progress := .fin 0 }
      let s2 : WOState := if s1.currentPathIndex < s1.path.length - 1
                          then s1.lookAtNextPoint else s1
      (s2, [.progressEv s1.currentPathIndex s1.path.length])
    else
      ({ s with progress := progress1,
                position := lerpVectors currentPos nextPos progress1 }, [])

end WOState

/-- The gait pose written to the body parts by `animateWalking`/`animateIdle`:
body and head heights and the limb rotations about the X axis. -/
structure GaitPose where
  bodyY : ℝ
  headY : ℝ
  leftArmRotX : ℝ
  rightArmRotX : ℝ
  leftLegRotX : ℝ
  rightLegRotX : ℝ

/-- `animateWalking(deltaTime)`.  `now` is the wall-clock sample `Date.now()`
taken inside the call; the oscillation argument is
`(now * 0.005) * walkSpeed * deltaTime * 60`. -/
def animateWalkingGait (now walkSpeed deltaTime : ℝ) : GaitPose :=
  let time := now * 0.005
  let walkCycle := Real.sin (time * walkSpeed * deltaTime * 60)
  { bodyY := 0.3 + |walkCycle| * 0.02
    headY := 0.75 + |walkCycle| * 0.02
    leftArmRotX := walkCycle * 0.5
    rightArmRotX := (-walkCycle) * 0.5
    leftLegRotX := walkCycle * 0.3
    rightLegRotX := (-walkCycle) * 0.3 }

/-- `animateIdle()`.  `now` is the wall-clock sample `Date.now()` taken inside
the call; the limbs return to the neutral angle. -/
def animateIdleGait (now : ℝ) : GaitPose :=
  let time := now * 0.001
  let idleBob := Real.sin time * 0.01
  { bodyY := 0.3 + idleBob
    headY := 0.75 + idleBob
    leftArmRotX := 0
    rightArmRotX := 0
    leftLegRotX := 0
    rightLegRotX := 0 }

/-- One exported operation of the walking object. -/
inductive WOp where
  | pathOp (p : Option (List Vec3))
  | startOp
  | resumeOp
  | stopOp
  | updateOp (dt : ℝ)
  | resetOp
  | hideOp
  | showOp
  | speedOp (v : ℝ)

/-- Apply one operation to the state (events discarded). -/
def applyOp (s : WOState) : WOp → WOState
  | .pathOp p => (s.setPath p).1
  | .startOp => s.startWalking.1
  | .resumeOp => s.resumeWalking.1
  | .stopOp => s.stopWalking
  | .updateOp dt => (s.update dt).1
  | .resetOp => s.resetPosition
  | .hideOp => s.hideObject
  | .showOp => s.showObject
  | .speedOp v => s.setWalkSpeed v

/-- Run a sequence of operations from a state. -/
def runOps (s : WOState) : List WOp → WOState
  | [] => s
  | op :: ops => runOps (applyOp s op) ops

/-- An operation has a positive frame time (trivially true for non-update
operations). -/
def WOp.dtPos : WOp → Prop
  | .updateOp dt => 0 < dt
  | _ => True

/-- Run a sequence of `update` calls, collecting the fired events. -/
def runUpdates (s : WOState) : List ℝ → WOState × List WOEvent
  | [] => (s, [])
  | dt :: dts =>
    let r := s.update dt
    let rest := runUpdates r.1 dts
    (rest.1, r.2 ++ rest.2)

/-- Position part of the state invariant: the object sits at the first
waypoint (as set by `setPath`/`startWalking`/`resetPosition`) or at an
interpolation point, with parameter in `[0, 1)`, of some segment of the path —
not necessarily the *current* segment, since a boundary-crossing `update`
leaves the position at the previous segment's last interpolation. -/
def PosInv (s : WOState) : Prop :=
  s.position = finVec (s.path.getD 0 v0) ∨
    ∃ j t, j + 1 < s.path.length ∧ 0 ≤ t ∧ t < 1 ∧
      s.position = lerpVectors (s.path.getD j v0) (s.path.getD (j + 1) v0) (.fin t)

/-- The state invariant maintained by every exported operation when `update`
is fed positive frame times: the stored path is empty or has length at least
two, the segment index never exceeds `length - 1` (it *does* reach
`length - 1` while still walking), the progress is a finite value in `[0, 1)`,
the walk speed is positive, walking implies a usable path, and the position is
as described by `PosInv`. -/
def StateInv (s : WOState) : Prop :=
  (s.path = [] ∨ 2 ≤ s.path.length) ∧
  s.currentPathIndex ≤ s.path.length - 1 ∧
  (∃ p, s.progress = JSNum.fin p ∧ 0 ≤ p ∧ p < 1) ∧
  0 < s.walkSpeed ∧
  (s.isWalking = true → 2 ≤ s.path.length) ∧
  PosInv s

/-! ### Concrete fixtures -/

/-- The two-waypoint demo path `[(0,0,0), (10,0,0)]`. -/
def demoPath : List Vec3 :=
  [⟨0, 0, 0⟩, ⟨10, 0, 0⟩]

/-- `setPath(demoPath)` followed by `startWalking()` from the initial state. -/
def demoStart : WOState :=
  ((initialState.setPath (some demoPath)).1.startWalking).1

/-- `n` successive `update(1.0)` calls after `demoStart`. -/
def demoStep : ℕ → WOState
  | 0 => demoStart
  | n + 1 => ((demoStep n).update 1).1

/-- A mid-segment state on the demo path (progress `p`, position `(px,0,0)`),
as produced by the update loop. -/
def demoMid (p px : ℝ) : WOState :=
  { path := demoPath, currentPathIndex := 0, progress := .fin p, isWalking := true,
    walkSpeed := 2, position := finVec ⟨px, 0, 0⟩, rotationY := Real.pi / 2,
    visible := true }

/-- A path whose first segment is degenerate (two equal waypoints). -/
def degPath : List Vec3 :=
  [⟨0, 0, 0⟩, ⟨0, 0, 0⟩, ⟨1, 0, 0⟩]

/-- Walking at the start of the degenerate segment. -/
def degState : WOState :=
  { path := degPath, currentPathIndex := 0, progress := .fin 0, isWalking := true,
    walkSpeed := 2, position := finVec v0, rotationY := 0, visible := true }

/-- A path whose only segment is vertical (differs only in `y`). -/
def vertPath : List Vec3 :=
  [⟨0, 0, 0⟩, ⟨0, 5, 0⟩]

/-- At the start of the vertical segment, with prior yaw `1` radian. -/
def vertState : WOState :=
  { path := vertPath, currentPathIndex := 0, progress := .fin 0, isWalking := false,
    walkSpeed := 2, position := finVec v0, rotationY := 1, visible := true }

/-- Walking mid-path on the demo path (progress `1/2`). -/
def midWalkState : WOState :=
  { path := demoPath, currentPathIndex := 0, progress := .fin (1/2), isWalking := true,
    walkSpeed := 2, position := finVec ⟨5, 0, 0⟩, rotationY := Real.pi / 2,
    visible := true }

/-- Walking with the segment index already at the final waypoint. -/
def endState : WOState :=
  { path := demoPath, currentPathIndex := 1, progress := .fin 0, isWalking := true,
    walkSpeed := 2, position := finVec ⟨8, 0, 0⟩, rotationY := Real.pi / 2,
    visible := true }

/-- Walking near the end of the first of two segments (progress `9/10`). -/
def crossState : WOState :=
  { path := [⟨0, 0, 0⟩, ⟨10, 0, 0⟩, ⟨10, 0, 10⟩], currentPathIndex := 0,
    progress := .fin (9/10), isWalking := true, walkSpeed := 2,
    position := finVec ⟨9, 0, 0⟩, rotationY := Real.pi / 2, visible := true }

/-! ## Helper lemmas -/

/-- Evaluation of the clustering scenario: the samples round to
`[0, 0.1, 3, 3]`, deduplicate and sort to `[0, 0.1, 3]`, and cluster into
`[0, 0.1]` and `[3]`, whose means are `0.05` and `3`. -/
lemma detectFloorLevels_demo_eval : detectFloorLevels demoElevations = [1/20, 3] := by
  have h1 : demoElevations.map roundTo1 = [0, 1/10, 3, 3] := by
    norm_num [demoElevations, roundTo1, round_eq]
  have h2 : ([(0 : ℚ), 1/10, 3, 3]).dedup = [0, 1/10, 3] := by
    norm_num [List.dedup_cons_of_not_mem, List.dedup_cons_of_mem]
  have h3 : List.insertionSort (· ≤ ·) ([(0 : ℚ), 1/10, 3]) = [0, 1/10, 3] := by
    norm_num [List.insertionSort, List.orderedInsert]
  rw [detectFloorLevels, sortedHeights, h1, h2, h3]
  norm_num [clusterLoop, listMean]

/-- Square roots of perfect squares. -/
lemma sqrt_eval (a b : ℝ) (hb : 0 ≤ b) (h : b ^ 2 = a) : Real.sqrt a = b := by
  rw [← h, Real.sqrt_sq hb]

lemma distanceTo_self (v : Vec3) : distanceTo v v = 0 := by
  simp [distanceTo]

lemma distanceTo_demo : distanceTo ⟨0, 0, 0⟩ ⟨10, 0, 0⟩ = 10 := by
  unfold distanceTo
  rw [show ((10 : ℝ) - 0) ^ 2 + (0 - 0 : ℝ) ^ 2 + (0 - 0 : ℝ) ^ 2 = 100 by norm_num]
  exact sqrt_eval 100 10 (by norm_num) (by norm_num)

/-- `lookAtNextPoint` only ever writes the Y rotation. -/
lemma lookAt_shape (s : WOState) : ∃ r, s.lookAtNextPoint = { s with rotationY := r } := by
  simp only [WOState.lookAtNextPoint]
  split_ifs with h1 h2
  · exact ⟨_, rfl⟩
  · exact ⟨s.rotationY, rfl⟩
  · exact ⟨s.rotationY, rfl⟩

lemma lookAt_path (s : WOState) : s.lookAtNextPoint.path = s.path := by
  obtain ⟨r, h⟩ := lookAt_shape s; rw [h]

lemma lookAt_index (s : WOState) : s.lookAtNextPoint.currentPathIndex = s.currentPathIndex := by
  obtain ⟨r, h⟩ := lookAt_shape s; rw [h]

lemma lookAt_progress (s : WOState) : s.lookAtNextPoint.progress = s.progress := by
  obtain ⟨r, h⟩ := lookAt_shape s; rw [h]

lemma lookAt_isWalking (s : WOState) : s.lookAtNextPoint.isWalking = s.isWalking := by
  obtain ⟨r, h⟩ := lookAt_shape s; rw [h]

lemma lookAt_walkSpeed (s : WOState) : s.lookAtNextPoint.walkSpeed = s.walkSpeed := by
  obtain ⟨r, h⟩ := lookAt_shape s; rw [h]

lemma lookAt_position (s : WOState) : s.lookAtNextPoint.position = s.position := by
  obtain ⟨r, h⟩ := lookAt_shape s; rw [h]

lemma lookAt_visible (s : WOState) : s.lookAtNextPoint.visible = s.visible := by
  obtain ⟨r, h⟩ := lookAt_shape s; rw [h]

lemma length3_ten : length3 ⟨10, 0, 0⟩ = 10 := by
  unfold length3
  rw [show ((10 : ℝ)) ^ 2 + (0 : ℝ) ^ 2 + (0 : ℝ) ^ 2 = 100 by norm_num]
  exact sqrt_eval 100 10 (by norm_num) (by norm_num)

lemma length3_unitx : length3 ⟨1, 0, 0⟩ = 1 := by
  unfold length3
  rw [show ((1 : ℝ)) ^ 2 + (0 : ℝ) ^ 2 + (0 : ℝ) ^ 2 = 1 by norm_num]
  exact Real.sqrt_one

lemma normalize3_ten : normalize3 ⟨10, 0, 0⟩ = ⟨1, 0, 0⟩ := by
  unfold normalize3
  rw [length3_ten]
  norm_num

lemma jsAtan2_one_zero : jsAtan2 1 0 = Real.pi / 2 := by
  unfold jsAtan2
  norm_num

/-- Facing the first segment of the demo path sets the yaw to `π / 2`. -/
lemma lookAt_demo (s : WOState) (hp : s.path = demoPath) (hi : s.currentPathIndex = 0) :
    s.lookAtNextPoint = { s with rotationY := Real.pi / 2 } := by
  have hstep : (⟨(demoPath.getD (0 + 1) v0).x - (demoPath.getD 0 v0).x,
      (demoPath.getD (0 + 1) v0).y - (demoPath.getD 0 v0).y,
      (demoPath.getD (0 + 1) v0).z - (demoPath.getD 0 v0).z⟩ : Vec3) = ⟨10, 0, 0⟩ := by
    simp [demoPath, v0]
  simp only [WOState.lookAtNextPoint, hp, hi, hstep, normalize3_ten, length3_unitx]
  rw [if_pos (by simp [demoPath]), if_pos (by norm_num)]
  simp [jsAtan2_one_zero]

/-- `setPath(demoPath)` from the initial state. -/
lemma setPath_demo_eq :
    (initialState.setPath (some demoPath)).1 =
      { path := demoPath, currentPathIndex := 0, progress := .fin 0, isWalking := false,
        walkSpeed := 2, position := finVec v0, rotationY := Real.pi / 2, visible := true } := by
  simp only [WOState.setPath, initialState]
  rw [if_neg (by simp [demoPath]), if_pos (by simp [demoPath])]
  have h := lookAt_demo
    { path := demoPath, currentPathIndex := 0, progress := .fin 0, isWalking := false,
      walkSpeed := 2, position := finVec (demoPath.getD 0 v0), rotationY := 0, visible := true }
    rfl rfl
  simp only []
  rw [h]
  simp [demoPath, v0]

/-- `startWalking()` after `setPath(demoPath)`. -/
lemma demoStart_eq : demoStart = demoMid 0 0 := by
  unfold demoStart
  rw [setPath_demo_eq]
  simp only [WOState.startWalking]
  rw [if_neg (by simp [demoPath])]
  rw [if_pos (by simp)]
  have h := lookAt_demo
    { path := demoPath, currentPathIndex := 0, progress := .fin 0, isWalking := true,
      walkSpeed := 2, position := finVec (demoPath.getD 0 v0), rotationY := Real.pi / 2,
      visible := true }
    rfl rfl
  simp only []
  rw [h]
  simp [demoMid, demoPath, v0]

/-- One non-crossing `update(1.0)` on the demo segment advances the progress
by `2 · 1 / 10 = 1/5` and re-interpolates the position. -/
lemma update_demoMid (p px : ℝ) (h : p + 1/5 < 1) :
    (demoMid p px).update 1 = (demoMid (p + 1/5) (10 * (p + 1/5)), []) := by
  simp only [WOState.update, demoMid]
  rw [if_neg (by simp [demoPath]), if_neg (by simp [demoPath])]
  simp only [demoPath, List.getD_cons_zero, List.getD_cons_succ]
  rw [distanceTo_demo]
  rw [show jsdivFin (2 * 1) 10 = .fin (1/5) by
    unfold jsdivFin; rw [if_neg (by norm_num)]; norm_num]
  simp only [JSNum.add]
  rw [if_neg (show ¬ (JSNum.fin (p + 1/5)).geOne from by
    simp only [JSNum.geOne]; linarith)]
  simp [lerpVectors, lerpComp, JSNum.add, JSNum.mul, finVec]

/-- The fifth `update(1.0)` crosses the segment boundary: the index advances,
the progress resets to `0`, and the position is left at `(8, 0, 0)`. -/
lemma update_demoMid_cross :
    (demoMid (4/5) 8).update 1 = (endState, [.progressEv 1 2]) := by
  simp only [WOState.update, demoMid]
  rw [if_neg (by simp [demoPath]), if_neg (by simp [demoPath])]
  simp only [demoPath, List.getD_cons_zero, List.getD_cons_succ]
  rw [distanceTo_demo]
  rw [show jsdivFin (2 * 1) 10 = .fin (1/5) by
    unfold jsdivFin; rw [if_neg (by norm_num)]; norm_num]
  simp only [JSNum.add]
  rw [if_pos (show (JSNum.fin (4/5 + 1/5)).geOne from by
    simp only [JSNum.geOne]; norm_num)]
  rw [if_neg (by simp)]
  simp [endState, demoPath]

lemma demoStep4_eq : demoStep 4 = demoMid (4/5) 8 := by
  have h1 : demoStep 1 = demoMid (1/5) 2 := by
    show ((demoStep 0).update 1).1 = _
    rw [show demoStep 0 = demoMid 0 0 from demoStart_eq]
    rw [update_demoMid 0 0 (by norm_num)]
    norm_num
  have h2 : demoStep 2 = demoMid (2/5) 4 := by
    show ((demoStep 1).update 1).1 = _
    rw [h1, update_demoMid _ _ (by norm_num)]
    norm_num
  have h3 : demoStep 3 = demoMid (3/5) 6 := by
    show ((demoStep 2).update 1).1 = _
    rw [h2, update_demoMid _ _ (by norm_num)]
    norm_num
  show ((demoStep 3).update 1).1 = _
  rw [h3, update_demoMid _ _ (by norm_num)]
  norm_num

/-- After five `update(1.0)` calls the walker sits at index `1` with progress
`0`, still walking, at position `(8, 0, 0)`. -/
lemma demoStep5_eq : demoStep 5 = endState := by
  show ((demoStep 4).update 1).1 = _
  rw [demoStep4_eq, update_demoMid_cross]

/-- A sixth `update` from `endState` only clears the walking flag and fires
the completion callback. -/
lemma update_endState :
    endState.update 1 = ({ endState with isWalking := false }, [.completed]) := by
  simp only [WOState.update, endState]
  rw [if_neg (by simp [demoPath]), if_pos (by simp [demoPath])]

/-- `update` on a non-walking state changes nothing and fires nothing. -/
lemma update_not_walking (s : WOState) (dt : ℝ) (h : s.isWalking = false) :
    s.update dt = (s, []) := by
  simp only [WOState.update]
  rw [if_pos (Or.inl (by simp [h]))]

lemma runUpdates_not_walking (s : WOState) (dts : List ℝ) (h : s.isWalking = false) :
    runUpdates s dts = (s, []) := by
  induction dts with
  | nil => rfl
  | cons dt dts ih =>
    simp only [runUpdates]
    rw [update_not_walking s dt h]
    simp [ih]

/-- The only `update` branch that fires the completion callback also clears
the walking flag, and fires nothing else. -/
lemma update_completed_shape (s : WOState) (dt : ℝ)
    (h : WOEvent.completed ∈ (s.update dt).2) :
    (s.update dt).1.isWalking = false ∧ (s.update dt).2 = [WOEvent.completed] := by
  simp only [WOState.update] at h ⊢
  split_ifs at h ⊢ <;> simp_all

lemma length3_y5 : length3 ⟨0, 5, 0⟩ = 5 := by
  unfold length3
  rw [show ((0 : ℝ)) ^ 2 + (5 : ℝ) ^ 2 + (0 : ℝ) ^ 2 = 25 by norm_num]
  exact sqrt_eval 25 5 (by norm_num) (by norm_num)

lemma length3_unity : length3 ⟨0, 1, 0⟩ = 1 := by
  unfold length3
  rw [show ((0 : ℝ)) ^ 2 + (1 : ℝ) ^ 2 + (0 : ℝ) ^ 2 = 1 by norm_num]
  exact Real.sqrt_one

lemma normalize3_y5 : normalize3 ⟨0, 5, 0⟩ = ⟨0, 1, 0⟩ := by
  unfold normalize3
  rw [length3_y5]
  norm_num

lemma jsAtan2_zero_zero : jsAtan2 0 0 = 0 := by
  unfold jsAtan2
  norm_num

/-- On the vertical demo segment the full 3D direction normalizes to
`(0, 1, 0)`, the guard `length() > 0` passes, and the yaw is set to
`atan2(0, 0) = 0`. -/
lemma lookAt_vert (s : WOState) (hp : s.path = vertPath) (hi : s.currentPathIndex = 0) :
    s.lookAtNextPoint = { s with rotationY := 0 } := by
  have hstep : (⟨(vertPath.getD (0 + 1) v0).x - (vertPath.getD 0 v0).x,
      (vertPath.getD (0 + 1) v0).y - (vertPath.getD 0 v0).y,
      (vertPath.getD (0 + 1) v0).z - (vertPath.getD 0 v0).z⟩ : Vec3) = ⟨0, 5, 0⟩ := by
    simp [vertPath, v0]
  simp only [WOState.lookAtNextPoint, hp, hi, hstep, normalize3_y5, length3_unity]
  rw [if_pos (by simp [vertPath]), if_pos (by norm_num)]
  simp [jsAtan2_zero_zero]

lemma gait_eval_pair :
    (animateWalkingGait 0 2 1).leftArmRotX = 0 ∧
    (animateWalkingGait (5 * Real.pi / 6) 2 1).leftArmRotX = 1 / 2 := by
  constructor
  · simp [animateWalkingGait]
  · simp only [animateWalkingGait]
    rw [show (5 * Real.pi / 6 * 0.005) * 2 * 1 * 60 = Real.pi / 2 by ring]
    rw [Real.sin_pi_div_two]
    norm_num

lemma idle_eval_pair :
    (animateIdleGait 0).bodyY = 0.3 ∧ (animateIdleGait (500 * Real.pi)).bodyY = 0.3 + 0.01 := by
  constructor
  · simp [animateIdleGait]
  · simp only [animateIdleGait]
    rw [show (500 * Real.pi) * 0.001 = Real.pi / 2 by ring]
    rw [Real.sin_pi_div_two]
    norm_num

/-! ## Claim theorems -/

/-- Claim C5 (confirmed): `setPath` with a missing path or a path of length
less than two leaves every state component unchanged and emits the
invalid-path warning; the operation is total (no exception). -/
theorem setPath_rejects_short (s : WOState) (wp : Option (List Vec3))
    (h : wp = none ∨ ∃ l, wp = some l ∧ l.length < 2) :
    s.setPath wp = (s, [WOEvent.warnInvalidPath]) := by
  rcases h with h | ⟨l, hl, hlen⟩
  · subst h; rfl
  · subst hl
    simp only [WOState.setPath]
    rw [if_pos hlen]

/-- Witness for C5 at the one-point path `[p0]`. -/
theorem setPath_rejects_short_witness :
    ((some [v0] : Option (List Vec3)) = none ∨
      ∃ l, (some [v0] : Option (List Vec3)) = some l ∧ l.length < 2) ∧
    initialState.setPath (some [v0]) = (initialState, [WOEvent.warnInvalidPath]) :=
  ⟨Or.inr ⟨[v0], rfl, by simp⟩,
   setPath_rejects_short initialState (some [v0]) (Or.inr ⟨[v0], rfl, by simp⟩)⟩

/-- Claim C6 (confirmed): within a single traversal, once an `update` call
fires the completion callback (it fires it exactly once), every further
`update` call fires no event at all, in particular no further completion. -/
theorem completion_fires_once (s : WOState) (dt : ℝ) (dts : List ℝ)
    (h : WOEvent.completed ∈ (s.update dt).2) :
    (s.update dt).2 = [WOEvent.completed] ∧
    WOEvent.completed ∉ (runUpdates (s.update dt).1 dts).2 := by
  obtain ⟨hw, he⟩ := update_completed_shape s dt h
  refine ⟨he, ?_⟩
  rw [runUpdates_not_walking _ _ hw]
  simp

lemma endState_completed_mem : WOEvent.completed ∈ (endState.update 1).2 := by
  rw [update_endState]
  simp

/-- Witness for C6: a state at the final waypoint, then two more updates. -/
theorem completion_fires_once_witness :
    (WOEvent.completed ∈ (endState.update 1).2) ∧
    ((endState.update 1).2 = [WOEvent.completed] ∧
      WOEvent.completed ∉ (runUpdates (endState.update 1).1 [1, 1]).2) :=
  ⟨endState_completed_mem, completion_fires_once endState 1 [1, 1] endState_completed_mem⟩

/-- Claim C4 (code_bug evaluation): with two waypoints differing only
vertically and a prior yaw of `1` radian, `lookAtNextPoint` does not retain
the previous yaw — it sets the yaw to `atan2(0, 0) = 0`, because the guard
tests the length of the already-normalized 3D direction. -/
theorem lookAt_vertical_zeroes_yaw :
    vertState.rotationY = 1 ∧ vertState.lookAtNextPoint.rotationY = 0 := by
  refine ⟨rfl, ?_⟩
  rw [lookAt_vert vertState rfl rfl]

/-- Claim C7 (counterexample): walking on a zero-length segment with
`deltaTime = 0`, the progress is *not* forced to `1`; the division `0 / 0`
yields `NaN`, the boundary test fails, the walk does not advance past the
segment, and the progress (and position) are poisoned with `NaN`. -/
theorem degenerate_zero_dt_nan :
    (degState.update 0).1.currentPathIndex = 0 ∧
    (degState.update 0).1.progress = JSNum.nan ∧
    (degState.update 0).1.progress ≠ JSNum.fin 1 ∧
    (degState.update 0).1.position = ⟨JSNum.nan, JSNum.nan, JSNum.nan⟩ := by
  have h : degState.update 0 =
      ({ path := degPath, currentPathIndex := 0, progress := JSNum.nan, isWalking := true,
         walkSpeed := 2, position := ⟨JSNum.nan, JSNum.nan, JSNum.nan⟩, rotationY := 0,
         visible := true }, []) := by
    simp only [WOState.update, degState]
    rw [if_neg (by simp [degPath]), if_neg (by simp [degPath])]
    simp only [degPath, List.getD_cons_zero, List.getD_cons_succ]
    rw [distanceTo_self]
    rw [show jsdivFin (2 * 0) 0 = JSNum.nan by unfold jsdivFin; norm_num]
    simp only [JSNum.add]
    rw [if_neg (show ¬ (JSNum.nan).geOne from by simp [JSNum.geOne])]
    simp [lerpVectors, lerpComp, JSNum.mul, JSNum.add]
  rw [h]
  refine ⟨rfl, rfl, by simp, rfl⟩

/-- Claim C7 (amended): there is no zero-length guard — the division by zero
happens — but for any positive `deltaTime` the infinite progress ratio still
crosses the boundary test, so the walk silently advances past the degenerate
segment: the index increments, the progress resets to `0`, only the ordinary
progress callback fires, and no error surfaces. -/
theorem degenerate_segment_skipped (s : WOState) (dt : ℝ)
    (hw : s.isWalking = true)
    (hidx : s.currentPathIndex < s.path.length - 1)
    (hdeg : s.path.getD s.currentPathIndex v0 = s.path.getD (s.currentPathIndex + 1) v0)
    (hdt : 0 < dt) (hsp : 0 < s.walkSpeed) (p : ℝ) (hp : s.progress = JSNum.fin p) :
    (s.update dt).1.currentPathIndex = s.currentPathIndex + 1 ∧
    (s.update dt).1.progress = JSNum.fin 0 ∧
    (s.update dt).2 = [WOEvent.progressEv (s.currentPathIndex + 1) s.path.length] ∧
    WOEvent.completed ∉ (s.update dt).2 ∧
    WOEvent.warnInvalidPath ∉ (s.update dt).2 := by
  simp only [WOState.update]
  rw [if_neg (by simp only [hw]; simp; omega)]
  rw [if_neg (by omega)]
  rw [hdeg, distanceTo_self]
  rw [show jsdivFin (s.walkSpeed * dt) 0 = JSNum.inf by
    unfold jsdivFin
    rw [if_pos rfl, if_pos (by positivity)]]
  rw [hp]
  simp only [JSNum.add]
  rw [if_pos (show (JSNum.inf).geOne from trivial)]
  split_ifs with hcase <;>
    simp [lookAt_index, lookAt_progress, lookAt_path]

/-- Witness for C7 (amended) on the degenerate demo path with `deltaTime = 1`. -/
theorem degenerate_segment_skipped_witness :
    (degState.isWalking = true ∧
     degState.currentPathIndex < degState.path.length - 1 ∧
     degState.path.getD degState.currentPathIndex v0 =
       degState.path.getD (degState.currentPathIndex + 1) v0 ∧
     (0 : ℝ) < 1 ∧ 0 < degState.walkSpeed ∧ degState.progress = JSNum.fin 0) ∧
    ((degState.update 1).1.currentPathIndex = degState.currentPathIndex + 1 ∧
     (degState.update 1).1.progress = JSNum.fin 0 ∧
     (degState.update 1).2 =
       [WOEvent.progressEv (degState.currentPathIndex + 1) degState.path.length] ∧
     WOEvent.completed ∉ (degState.update 1).2 ∧
     WOEvent.warnInvalidPath ∉ (degState.update 1).2) :=
  ⟨⟨rfl, by simp [degState, degPath], rfl, by norm_num, by norm_num [degState], rfl⟩,
   degenerate_segment_skipped degState 1 rfl (by simp [degState, degPath]) rfl
     (by norm_num) (by norm_num [degState]) 0 rfl⟩

/-- Claim C8 (counterexample): `resetPosition` called while walking leaves the
walking flag set — the agent is still walking after the call (it restarts from
the beginning on the next update), contradicting "leaves motionState = Idle". -/
theorem resetPosition_leaves_walking :
    midWalkState.isWalking = true ∧ midWalkState.path ≠ [] ∧
    midWalkState.resetPosition.isWalking = true := by
  refine ⟨rfl, by simp [midWalkState, demoPath], ?_⟩
  simp only [WOState.resetPosition]
  rw [if_pos (by simp [midWalkState, demoPath])]
  rw [lookAt_isWalking]
  simp [midWalkState]

/-- Claim C8 (amended): while a path exists, `resetPosition` resets the
segment index and progress, snaps the position to the first waypoint,
recomputes the yaw toward the first segment exactly as `lookAtNextPoint`
does, and leaves the walking flag unchanged (it does not force Idle). -/
theorem resetPosition_spec (s : WOState) (h : s.path ≠ []) :
    s.resetPosition.currentPathIndex = 0 ∧
    s.resetPosition.progress = JSNum.fin 0 ∧
    s.resetPosition.position = finVec (s.path.getD 0 v0) ∧
    s.resetPosition.isWalking = s.isWalking ∧
    s.resetPosition.rotationY =
      (WOState.lookAtNextPoint
        { s with
            currentPathIndex := 0
            progress := JSNum.fin 0
            position := finVec (s.path.getD 0 v0) }).rotationY := by
  have hlen : 0 < s.path.length := List.length_pos.mpr h
  simp only [WOState.resetPosition]
  rw [if_pos hlen]
  exact ⟨by rw [lookAt_index], by rw [lookAt_progress], by rw [lookAt_position],
    by rw [lookAt_isWalking], rfl⟩

/-- Witness for C8 (amended) at a mid-walk state. -/
theorem resetPosition_spec_witness :
    midWalkState.path ≠ [] ∧
    (midWalkState.resetPosition.currentPathIndex = 0 ∧
     midWalkState.resetPosition.progress = JSNum.fin 0 ∧
     midWalkState.resetPosition.position = finVec (midWalkState.path.getD 0 v0) ∧
     midWalkState.resetPosition.isWalking = midWalkState.isWalking ∧
     midWalkState.resetPosition.rotationY =
       (WOState.lookAtNextPoint
         { midWalkState with
             currentPathIndex := 0
             progress := JSNum.fin 0
             position := finVec (midWalkState.path.getD 0 v0) }).rotationY) :=
  ⟨by simp [midWalkState, demoPath],
   resetPosition_spec midWalkState (by simp [midWalkState, demoPath])⟩

/-- Claim C9 (counterexample): two `animateWalking` calls with identical walk
speed and `deltaTime` but different wall-clock samples (`Date.now()`) produce
different gait poses — the gait is not independent of the wall clock. -/
theorem gait_clock_counterexample :
    animateWalkingGait 0 2 1 ≠ animateWalkingGait (5 * Real.pi / 6) 2 1 := by
  intro h
  have h1 := congrArg GaitPose.leftArmRotX h
  rw [gait_eval_pair.1, gait_eval_pair.2] at h1
  norm_num at h1

/-- Claim C9 (amended): the gait pose is a deterministic function of the
wall-clock sample together with the walk speed and `deltaTime` — and the
wall-clock dependence is real: both the walking gait and the idle gait take
different values at different wall-clock samples with all caller-supplied
inputs held fixed. -/
theorem gait_depends_on_wall_clock :
    (∃ now now' : ℝ, animateWalkingGait now 2 1 ≠ animateWalkingGait now' 2 1) ∧
    (∃ now now' : ℝ, animateIdleGait now ≠ animateIdleGait now') := by
  constructor
  · refine ⟨0, 5 * Real.pi / 6, fun h => ?_⟩
    have h1 := congrArg GaitPose.leftArmRotX h
    rw [gait_eval_pair.1, gait_eval_pair.2] at h1
    norm_num at h1
  · refine ⟨0, 500 * Real.pi, fun h => ?_⟩
    have h1 := congrArg GaitPose.bodyY h
    rw [idle_eval_pair.1, idle_eval_pair.2] at h1
    norm_num at h1

/-- Claim C10 (confirmed): a single `update` call advances the segment index
by at most one, however large `deltaTime` is; and whenever the freshly
computed progress reaches or exceeds `1`, the index advances by exactly one,
the progress is reset to exactly `0` (the overshoot is discarded), and the
position is not recomputed. -/
theorem update_single_step (s : WOState) (dt : ℝ) :
    (s.update dt).1.currentPathIndex ≤ s.currentPathIndex + 1 ∧
    (s.isWalking = true → s.currentPathIndex < s.path.length - 1 →
      JSNum.geOne (s.progress.add (jsdivFin (s.walkSpeed * dt)
        (distanceTo (s.path.getD s.currentPathIndex v0)
          (s.path.getD (s.currentPathIndex + 1) v0)))) →
      (s.update dt).1.currentPathIndex = s.currentPathIndex + 1 ∧
      (s.update dt).1.progress = JSNum.fin 0 ∧
      (s.update dt).1.position = s.position) := by
  constructor
  · simp only [WOState.update]
    split_ifs <;> simp [lookAt_index]
  · intro hw hidx hge
    simp only [WOState.update]
    rw [if_neg (by simp only [hw]; simp; omega)]
    rw [if_neg (by omega)]
    rw [if_pos hge]
    split_ifs with hcase <;>
      simp [lookAt_index, lookAt_progress, lookAt_position]

/-- Witness for C10 at a boundary-crossing call. -/
theorem update_single_step_witness :
    (crossState.isWalking = true ∧
     crossState.currentPathIndex < crossState.path.length - 1 ∧
     JSNum.geOne (crossState.progress.add (jsdivFin (crossState.walkSpeed * 1)
       (distanceTo (crossState.path.getD crossState.currentPathIndex v0)
         (crossState.path.getD (crossState.currentPathIndex + 1) v0))))) ∧
    ((crossState.update 1).1.currentPathIndex ≤ crossState.currentPathIndex + 1 ∧
     ((crossState.update 1).1.currentPathIndex = crossState.currentPathIndex + 1 ∧
      (crossState.update 1).1.progress = JSNum.fin 0 ∧
      (crossState.update 1).1.position = crossState.position)) := by
  have hge : JSNum.geOne (crossState.progress.add (jsdivFin (crossState.walkSpeed * 1)
      (distanceTo (crossState.path.getD crossState.currentPathIndex v0)
        (crossState.path.getD (crossState.currentPathIndex + 1) v0)))) := by
    show JSNum.geOne ((JSNum.fin (9/10)).add (jsdivFin (2 * 1)
      (distanceTo ⟨0, 0, 0⟩ ⟨10, 0, 0⟩)))
    rw [distanceTo_demo]
    rw [show jsdivFin (2 * 1) 10 = .fin (1/5) by
      unfold jsdivFin; rw [if_neg (by norm_num)]; norm_num]
    simp only [JSNum.add, JSNum.geOne]
    norm_num
  refine ⟨⟨rfl, by simp [crossState], hge⟩,
    (update_single_step crossState 1).1, (update_single_step crossState 1).2 rfl
      (by simp [crossState]) hge⟩

/-- Claim C1 (counterexample): with waypoints `[(0,0,0), (10,0,0)]` and speed
`2`, after five `update(1.0)` calls (total time `totalPathLength / speed`)
the walker is *still walking* (not Completed), the segment index is `1`
(not `N − 2 = 0`), and the position is `(8, 0, 0)`, not the final waypoint. -/
theorem five_updates_not_completed :
    (demoStep 5).isWalking = true ∧
    (demoStep 5).currentPathIndex ≠ 0 ∧
    (demoStep 5).position ≠ finVec ⟨10, 0, 0⟩ := by
  rw [demoStep5_eq]
  refine ⟨rfl, by simp [endState], ?_⟩
  simp only [endState, finVec]
  intro h
  have := congrArg JVec3.x h
  simp only [JSNum.fin.injEq] at this
  norm_num at this

/-- Claim C1 (amended): after the five `update(1.0)` calls the walker sits at
segment index `N − 1 = 1` with progress `0`, still in the walking state, at
the last interpolated position `(8, 0, 0)` (the boundary-crossing update does
not recompute the position and the overshoot is discarded); a *sixth* call
then clears the walking flag and fires the completion callback, leaving the
position frozen at `(8, 0, 0)` — never at the final waypoint. -/
theorem six_updates_complete :
    (demoStep 5).currentPathIndex = 1 ∧
    (demoStep 5).progress = JSNum.fin 0 ∧
    (demoStep 5).isWalking = true ∧
    (demoStep 5).position = finVec ⟨8, 0, 0⟩ ∧
    ((demoStep 5).update 1).1.isWalking = false ∧
    ((demoStep 5).update 1).2 = [WOEvent.completed] ∧
    ((demoStep 5).update 1).1.position = finVec ⟨8, 0, 0⟩ := by
  rw [demoStep5_eq, update_endState]
  exact ⟨rfl, rfl, rfl, rfl, rfl, rfl, rfl⟩

/-! ### Preservation of the state invariant -/

lemma lookAt_inv (s : WOState) (h : StateInv s) : StateInv s.lookAtNextPoint := by
  obtain ⟨r, hr⟩ := lookAt_shape s
  rw [hr]
  unfold StateInv PosInv at h ⊢
  simpa using h

lemma inv_initialState : StateInv initialState := by
  unfold StateInv PosInv initialState
  refine ⟨Or.inl rfl, by simp, ⟨0, rfl, le_refl 0, by norm_num⟩, by norm_num, by simp,
    Or.inl rfl⟩

lemma inv_setPath (s : WOState) (wp : Option (List Vec3)) (h : StateInv s) :
    StateInv (s.setPath wp).1 := by
  match wp with
  | none => exact h
  | some p =>
    simp only [WOState.setPath]
    split_ifs with h1 h2
    · exact h
    · apply lookAt_inv
      unfold StateInv PosInv
      push_neg at h1
      exact ⟨Or.inr h1, by simp, ⟨0, rfl, le_refl 0, by norm_num⟩, h.2.2.2.1, by simp,
        Or.inl rfl⟩
    · omega

lemma inv_startWalking (s : WOState) (h : StateInv s) : StateInv s.startWalking.1 := by
  simp only [WOState.startWalking]
  split_ifs with h1 h2
  · exact h
  · apply lookAt_inv
    unfold StateInv PosInv
    obtain ⟨hpa, hix, hpr, hsp, hwl, hpo⟩ := h
    exact ⟨by simpa using hpa, by simpa using hix, by simpa using hpr, by simpa using hsp,
      by simp; omega, Or.inl (by simp)⟩
  · unfold StateInv PosInv
    obtain ⟨hpa, hix, hpr, hsp, hwl, hpo⟩ := h
    exact ⟨by simpa using hpa, by simpa using hix, by simpa using hpr, by simpa using hsp,
      by simp; omega, by simpa [PosInv] using hpo⟩

lemma inv_resumeWalking (s : WOState) (h : StateInv s) : StateInv s.resumeWalking.1 := by
  simp only [WOState.resumeWalking]
  split_ifs with h1
  · exact h
  · unfold StateInv PosInv
    obtain ⟨hpa, hix, hpr, hsp, hwl, hpo⟩ := h
    exact ⟨by simpa using hpa, by simpa using hix, by simpa using hpr, by simpa using hsp,
      by simp; omega, by simpa [PosInv] using hpo⟩

lemma inv_stopWalking (s : WOState) (h : StateInv s) : StateInv s.stopWalking := by
  unfold StateInv PosInv at h ⊢
  obtain ⟨hpa, hix, hpr, hsp, hwl, hpo⟩ := h
  exact ⟨by simpa using hpa, by simpa using hix, by simpa using hpr, by simpa using hsp,
    by simp [WOState.stopWalking], by simpa [WOState.stopWalking] using hpo⟩

lemma inv_resetPosition (s : WOState) (h : StateInv s) : StateInv s.resetPosition := by
  simp only [WOState.resetPosition]
  split_ifs with h1
  · apply lookAt_inv
    unfold StateInv PosInv
    obtain ⟨hpa, hix, hpr, hsp, hwl, hpo⟩ := h
    exact ⟨by simpa using hpa, by simp, ⟨0, rfl, le_refl 0, by norm_num⟩,
      by simpa using hsp, by simpa using hwl, Or.inl (by simp)⟩
  · exact h

lemma inv_hideObject (s : WOState) (h : StateInv s) : StateInv s.hideObject := by
  unfold StateInv PosInv at h ⊢
  obtain ⟨hpa, hix, hpr, hsp, hwl, hpo⟩ := h
  exact ⟨by simpa [WOState.hideObject] using hpa, by simpa [WOState.hideObject] using hix,
    by simpa [WOState.hideObject] using hpr, by simpa [WOState.hideObject] using hsp,
    by simp [WOState.hideObject], by simpa [WOState.hideObject] using hpo⟩

lemma inv_showObject (s : WOState) (h : StateInv s) : StateInv s.showObject := by
  unfold StateInv PosInv at h ⊢
  obtain ⟨hpa, hix, hpr, hsp, hwl, hpo⟩ := h
  exact ⟨by simpa [WOState.showObject] using hpa, by simpa [WOState.showObject] using hix,
    by simpa [WOState.showObject] using hpr, by simpa [WOState.showObject] using hsp,
    by simpa [WOState.showObject] using hwl, by simpa [WOState.showObject] using hpo⟩

lemma inv_setWalkSpeed (s : WOState) (v : ℝ) (h : StateInv s) :
    StateInv (s.setWalkSpeed v) := by
  unfold StateInv PosInv at h ⊢
  obtain ⟨hpa, hix, hpr, hsp, hwl, hpo⟩ := h
  refine ⟨by simpa [WOState.setWalkSpeed] using hpa, by simpa [WOState.setWalkSpeed] using hix,
    by simpa [WOState.setWalkSpeed] using hpr, ?_,
    by simpa [WOState.setWalkSpeed] using hwl, by simpa [WOState.setWalkSpeed] using hpo⟩
  simp only [WOState.setWalkSpeed]
  norm_num

lemma inv_update (s : WOState) (dt : ℝ) (hdt : 0 < dt) (h : StateInv s) :
    StateInv (s.update dt).1 := by
  obtain ⟨hpa, hix, ⟨p, hp, hp0, hp1⟩, hsp, hwl, hpo⟩ := h
  simp only [WOState.update]
  split_ifs with h1 h2 h3 h4
  · exact ⟨hpa, hix, ⟨p, hp, hp0, hp1⟩, hsp, hwl, hpo⟩
  · exact ⟨hpa, hix, ⟨p, hp, hp0, hp1⟩, hsp, by simp, hpo⟩
  · -- boundary crossing, with yaw recomputation
    push_neg at h1 h2
    apply lookAt_inv
    unfold StateInv PosInv
    refine ⟨hpa, by simp; omega, ⟨0, rfl, le_refl 0, by norm_num⟩, hsp, by simp; omega,
      ?_⟩
    simpa [PosInv] using hpo
  · -- boundary crossing at the last segment
    push_neg at h1 h2
    unfold StateInv PosInv
    refine ⟨hpa, by simp; omega, ⟨0, rfl, le_refl 0, by norm_num⟩, hsp, by simp; omega,
      ?_⟩
    simpa [PosInv] using hpo
  · -- no crossing: the progress stays finite in [0, 1)
    push_neg at h1 h2
    set cp := s.path.getD s.currentPathIndex v0 with hcp
    set np := s.path.getD (s.currentPathIndex + 1) v0 with hnp
    have hLnn : 0 ≤ distanceTo cp np := Real.sqrt_nonneg _
    have hm : 0 < s.walkSpeed * dt := by positivity
    by_cases hL : distanceTo cp np = 0
    · exfalso
      apply h3
      rw [hp, hL]
      rw [show jsdivFin (s.walkSpeed * dt) 0 = JSNum.inf by
        unfold jsdivFin; rw [if_pos rfl, if_pos hm]]
      simp [JSNum.add, JSNum.geOne]
    · have hLpos : 0 < distanceTo cp np := lt_of_le_of_ne hLnn (Ne.symm hL)
      have hdivpos : 0 < s.walkSpeed * dt / distanceTo cp np := by positivity
      have hdiv : jsdivFin (s.walkSpeed * dt) (distanceTo cp np) =
          JSNum.fin (s.walkSpeed * dt / distanceTo cp np) := by
        unfold jsdivFin; rw [if_neg hL]
      rw [hp, hdiv] at h3 ⊢
      simp only [JSNum.add, JSNum.geOne] at h3 ⊢
      push_neg at h3
      unfold StateInv PosInv
      refine ⟨hpa, by simpa using hix, ⟨p + s.walkSpeed * dt / distanceTo cp np, by simp,
        by linarith, by linarith⟩, hsp, by simp; omega, ?_⟩
      right
      refine ⟨s.currentPathIndex, p + s.walkSpeed * dt / distanceTo cp np, by simp; omega,
        by linarith, by linarith, ?_⟩
      simp [hcp, hnp]

lemma inv_applyOp (s : WOState) (op : WOp) (hdt : op.dtPos) (h : StateInv s) :
    StateInv (applyOp s op) := by
  cases op with
  | pathOp p => exact inv_setPath s p h
  | startOp => exact inv_startWalking s h
  | resumeOp => exact inv_resumeWalking s h
  | stopOp => exact inv_stopWalking s h
  | updateOp dt => exact inv_update s dt hdt h
  | resetOp => exact inv_resetPosition s h
  | hideOp => exact inv_hideObject s h
  | showOp => exact inv_showObject s h
  | speedOp v => exact inv_setWalkSpeed s v h

lemma inv_runOps (s : WOState) (ops : List WOp) (hops : ∀ op ∈ ops, op.dtPos)
    (h : StateInv s) : StateInv (runOps s ops) := by
  induction ops generalizing s with
  | nil => exact h
  | cons op ops ih =>
    exact ih _ (fun o ho => hops o (List.mem_cons_of_mem _ ho))
      (inv_applyOp s op (hops op (List.mem_cons_self _ _)) h)

/-- Claim C2 (amended): at every state reachable from the initial state by the
exported operations with positive frame times, the segment index is bounded by
`length(path) - 1` (it *can equal* `length - 1` while still Walking, right
after the final boundary crossing), the progress is a finite value in
`[0, 1)`, walking implies a usable path, and the position is either the first
waypoint (immediately after `setPath`/`startWalking`/`resetPosition`) or an
interpolation, with parameter in `[0, 1)`, of *some* segment of the path — the
current one except immediately after a boundary-crossing update, which leaves
the position at the previous segment's last interpolation. -/
theorem walking_state_invariant (ops : List WOp) (hops : ∀ op ∈ ops, op.dtPos) :
    StateInv (runOps initialState ops) :=
  inv_runOps initialState ops hops inv_initialState

/-- Witness for C2 (amended) on a concrete three-operation run. -/
theorem walking_state_invariant_witness :
    (∀ op ∈ [WOp.pathOp (some demoPath), WOp.startOp, WOp.updateOp 1], op.dtPos) ∧
    StateInv (runOps initialState [WOp.pathOp (some demoPath), WOp.startOp,
      WOp.updateOp 1]) := by
  have hops : ∀ op ∈ [WOp.pathOp (some demoPath), WOp.startOp, WOp.updateOp 1],
      op.dtPos := by
    intro op hop
    simp only [List.mem_cons, List.not_mem_nil, or_false] at hop
    rcases hop with rfl | rfl | rfl <;> simp [WOp.dtPos]
  exact ⟨hops, walking_state_invariant _ hops⟩

/-- Claim C2 (counterexample): the state reached by
`setPath(demoPath); startWalking(); update(1.0) × 5` is still Walking but has
`segmentIndex = 1 = length(waypoints) - 1`, violating
`segmentIndex < length(waypoints) - 1`; moreover its position `(8, 0, 0)` is
not the interpolation of the "current" segment at the current progress. -/
theorem walking_invariant_fails :
    (demoStep 5).isWalking = true ∧
    ¬ (demoStep 5).currentPathIndex < (demoStep 5).path.length - 1 ∧
    (demoStep 5).position ≠
      lerpVectors ((demoStep 5).path.getD (demoStep 5).currentPathIndex v0)
        ((demoStep 5).path.getD ((demoStep 5).currentPathIndex + 1) v0)
        (demoStep 5).progress := by
  rw [demoStep5_eq]
  refine ⟨rfl, by simp [endState, demoPath], ?_⟩
  show finVec ⟨8, 0, 0⟩ ≠ lerpVectors (demoPath.getD 1 v0) (demoPath.getD 2 v0) (JSNum.fin 0)
  simp only [demoPath, List.getD_cons_zero, List.getD_cons_succ]
  intro h
  have hx := congrArg JVec3.x h
  simp only [finVec, lerpVectors, lerpComp, JSNum.mul, JSNum.add, JSNum.fin.injEq] at hx
  norm_num at hx

/-- Claim C3 (counterexample): on the elevation samples
`[0.0, 0.05, 3.0, 3.02]` the clusterer does return two means, but they are
`0.05` and `3` (means of the *rounded* samples `{0, 0.1, 3}`), and the first
is not within `0.01` of the claimed `0.025`. -/
theorem floor_levels_not_claimed_means :
    detectFloorLevels demoElevations = [1/20, 3] ∧
    ¬ |(1/20 : ℚ) - 1/40| ≤ 1/100 := by
  refine ⟨detectFloorLevels_demo_eval, ?_⟩
  rw [show ((1 : ℚ)/20 - 1/40) = 1/40 by norm_num,
    abs_of_pos (by norm_num : (0 : ℚ) < 1/40)]
  norm_num

/-- Claim C3 (amended): on the elevation samples `[0.0, 0.05, 3.0, 3.02]` the
clusterer returns exactly two cluster means, exactly `0.05` and exactly `3` —
the samples are first rounded to one decimal (`0.05 ↦ 0.1`, `3.02 ↦ 3.0`), so
the means are taken over the rounded groups `[0, 0.1]` and `[3]`. -/
theorem floor_levels_demo :
    detectFloorLevels demoElevations = [1/20, 3] ∧
    (detectFloorLevels demoElevations).length = 2 := by
  refine ⟨detectFloorLevels_demo_eval, by rw [detectFloorLevels_demo_eval]; rfl⟩

end
